import Mathlib

/-!
Verification development for the wavesurfer multi-canvas renderer.

The JavaScript sources embedded here are `drawer.multicanvas.js` (the
MultiCanvas surface set) and `drawer.canvasentry.js` (one canvas entry,
a wave canvas plus an optional progress canvas).  Numbers are modelled
as rationals; JS Math.round is the Mathlib round (floor of x + 1/2),
Math.floor and Math.ceil are the integer floor and ceiling, and the
twos-complement truncation operator of JS is modelled with an explicit
wrap at 2 to the power 32.
-/

namespace WaveSurfer

/-- JS truncation toward zero (the fractional part is dropped). -/
def jsTrunc (q : ℚ) : ℤ := if 0 ≤ q then ⌊q⌋ else ⌈q⌉

/-- Wrap an integer into the signed 32-bit range, as the JS bitwise
operators do. -/
def js32 (n : ℤ) : ℤ := (n + 2 ^ 31) % 2 ^ 32 - 2 ^ 31

/-- The JS double-tilde operator: truncate toward zero, then wrap to a
signed 32-bit integer. -/
def jsTrunc32 (q : ℚ) : ℤ := js32 (jsTrunc q)

/-- Array access `peaks[i] || 0` of the source: an out-of-range or
negative index yields the default 0 (undefined coerced by the or). -/
def nthPeak (ps : List ℚ) (i : ℤ) : ℚ := if 0 ≤ i then ps.getD i.toNat 0 else 0

/-- Modelled from the spec: `util.absMax` (util.js is not part of the
sources) returns the maximum absolute sample value of a peak series.
The minus-infinity sentinel for an empty series is not representable in
the rationals; 0 is used, and no claim below depends on that case. -/
def absMaxUtil (ps : List ℚ) : ℚ := ps.foldl (fun m v => max m |v|) 0

/-- Modelled from the spec: `util.max` over a list of per-channel
maxima (all nonnegative); the empty-list sentinel is as in absMaxUtil. -/
def maxUtil (ls : List ℚ) : ℚ := ls.foldl max 0

/-- A decoded backup image (HTMLImageElement) used by the stretch path. -/
structure Img where
  width : ℚ
  height : ℚ
  src : String
deriving DecidableEq

/-- The progress canvas of an entry: its pixel width and height and its
style left offset.  Present only when the set renders a progress wave. -/
structure ProgressState where
  width : ℚ
  height : ℚ
  left : ℚ
deriving DecidableEq

/-- One CanvasEntry of drawer.canvasentry.js.  The wave canvas always
exists after initWave; the progress canvas and its context are absent
(null in the source) when no progress wave is rendered.  Pixel contents
are not modelled; waveData is an abstract token for the current raster
of the wave canvas, used only to give getImage a value to encode. -/
structure CanvasEntry where
  left : ℚ
  waveWidth : ℚ
  waveHeight : ℚ
  elementWidth : ℚ
  start : ℚ
  endFrac : ℚ
  drawn : Bool
  hasProgressCanvas : Bool
  halfPixel : ℚ
  progress : Option ProgressState
  backimage : Option String
  progBackimage : Option String
  waveData : String
deriving DecidableEq

/-- One primitive call issued to a 2d canvas rendering context. -/
inductive CtxCall where
  | fillRect (x y w h : ℚ)
  | beginPath
  | moveTo (x y : ℚ)
  | lineTo (x y : ℚ)
  | quadraticCurveTo (cx cy x y : ℚ)
  | closePath
  | fill
  | nop
deriving DecidableEq

namespace CanvasEntry

/-- CanvasEntry.drawRoundedRect: the exact sequence of context calls.
A zero height is an early return; a negative height flips its sign and
moves y up by the magnitude before the path is built. -/
def drawRoundedRect (x y width height radius : ℚ) : List CtxCall :=
  if height = 0 then []
  else
    let height' := if height < 0 then -height else height
    let y' := if height < 0 then y - -height else y
    [CtxCall.beginPath,
     CtxCall.moveTo (x + radius) y',
     CtxCall.lineTo (x + width - radius) y',
     CtxCall.quadraticCurveTo (x + width) y' (x + width) (y' + radius),
     CtxCall.lineTo (x + width) (y' + height' - radius),
     CtxCall.quadraticCurveTo (x + width) (y' + height') (x + width - radius) (y' + height'),
     CtxCall.lineTo (x + radius) (y' + height'),
     CtxCall.quadraticCurveTo x (y' + height') x (y' + height' - radius),
     CtxCall.lineTo x (y' + radius),
     CtxCall.quadraticCurveTo x y' (x + radius) y',
     CtxCall.closePath,
     CtxCall.fill]

/-- CanvasEntry.fillRectToContext on a bound context: a truthy radius
(nonzero) takes the rounded path, otherwise one plain fillRect call. -/
def fillRectToContext (x y width height radius : ℚ) : List CtxCall :=
  if radius ≠ 0 then drawRoundedRect x y width height radius
  else [CtxCall.fillRect x y width height]

end CanvasEntry

/-- Normalization of a context call under the HTML canvas standard: a
fillRect with a zero extent paints nothing, and negative extents paint
the rectangle spanned by the two corners, so the call is rewritten to
its corner-normalized form.  Path calls are left untouched. -/
def normCall : CtxCall → CtxCall
  | CtxCall.fillRect x y w h =>
      if w = 0 ∨ h = 0 then CtxCall.nop
      else CtxCall.fillRect (min x (x + w)) (min y (y + h)) |w| |h|
  | c => c

/-- The effectful calls of a list: everything but nop. -/
def effects (l : List CtxCall) : List CtxCall := l.filter (fun c => c ≠ CtxCall.nop)

/-- The list of integers from a (inclusive) to b (exclusive): the index
domain of a JS for loop from a while below b. -/
def intRange (a b : ℤ) : List ℤ := (List.range (b - a).toNat).map (fun k : ℕ => a + (k : ℤ))

namespace CanvasEntry

/-- First peak-pair index of the owned slice in drawLineToContext:
round of (peaks.length over 2) times the owned start fraction. -/
def lineFirst (peaksLen : ℕ) (startFrac : ℚ) : ℤ :=
  round ((peaksLen : ℚ) / 2 * startFrac)

/-- One past the last peak-pair index of the owned slice in
drawLineToContext: round of (peaks.length over 2) times the owned end
fraction, plus one.  The plus one is unconditional in the source. -/
def lineLast (peaksLen : ℕ) (endFrac : ℚ) : ℤ :=
  round ((peaksLen : ℚ) / 2 * endFrac) + 1

/-- CanvasEntry.drawLineToContext: the closed polyline path built on a
bound context, as the list of its vertices in call order (the moveTo
vertex first, then every lineTo vertex).  Top edge walks the owned
pair indices left to right reading even sample positions, the bottom
edge walks them right to left reading odd positions, and the opening
and closing vertices reuse the first owned pair. -/
def drawLinePath (peaks : List ℚ) (absmax halfH offsetY : ℚ)
    (startFrac endFrac : ℚ) (waveWidth halfPixel : ℚ) : List (ℚ × ℚ) :=
  let length : ℚ := (peaks.length : ℚ) / 2
  let first : ℤ := round (length * startFrac)
  let last : ℤ := round (length * endFrac) + 1
  let canvasStart : ℤ := first
  let canvasEnd : ℤ := last
  let scale : ℚ := waveWidth / (((canvasEnd : ℚ) - (canvasStart : ℚ)) - 1)
  let halfOffset : ℚ := halfH + offsetY
  let absmaxHalf : ℚ := absmax / halfH
  [(((canvasStart - first : ℤ) : ℚ) * scale, halfOffset),
   (((canvasStart - first : ℤ) : ℚ) * scale,
    halfOffset - ((round (nthPeak peaks (2 * canvasStart) / absmaxHalf) : ℤ) : ℚ))]
  ++ (intRange canvasStart canvasEnd).map (fun i =>
      (((i - first : ℤ) : ℚ) * scale + halfPixel,
       halfOffset - ((round (nthPeak peaks (2 * i) / absmaxHalf) : ℤ) : ℚ)))
  ++ ((intRange canvasStart canvasEnd).reverse).map (fun j =>
      (((j - first : ℤ) : ℚ) * scale + halfPixel,
       halfOffset - ((round (nthPeak peaks (2 * j + 1) / absmaxHalf) : ℤ) : ℚ)))
  ++ [(((canvasStart - first : ℤ) : ℚ) * scale,
      halfOffset - ((round (nthPeak peaks (2 * canvasStart + 1) / absmaxHalf) : ℤ) : ℚ))]

/-- Modelled platform encoder for canvas toDataURL and toBlob: the
encoded image of a raster token.  The claims below depend only on the
structure of getImage results, never on the encoding itself. -/
def encodeImage (format : String) (quality : ℚ) (data : String) : String :=
  format ++ ";" ++ toString quality.num ++ ";" ++ data

/-- CanvasEntry.stretchBackimage.  Pixel paints (clearRect, drawImage)
are not tracked; what is modelled exactly is the control flow, every
access to the optional progress canvas and its context, the null
checks of the source, and the dimension and offset writes to the
entry.  A TypeError of the source (a member access on null) becomes an
error value. -/
def stretchBackimage (e : CanvasEntry) (start totalWidth pixelRatio : ℚ)
    (viewBounds : ℚ × ℚ) (backupImg : Option (List Img)) :
    Except String (CanvasEntry × ℚ) :=
  let endPos := e.endFrac * totalWidth
  if start > viewBounds.2 ∨ endPos < viewBounds.1 then
    -- the wave context clearRect succeeds; the progress context is
    -- null when no progress canvas was bound, and clearRect on it throws
    match e.progress with
    | none => Except.error ("TypeError: clearRect on null progressCtx")
    | some _ => Except.ok (e, endPos)
  else
    let viewStart := max start viewBounds.1
    let viewEnd := min endPos viewBounds.2
    let viewOffset := (start - viewStart) * pixelRatio
    let newWidth := viewEnd - viewStart
    let waveWidth : ℚ := ((round newWidth : ℤ) : ℚ)
    let canvasWidth : ℚ := ((round (newWidth * pixelRatio) : ℤ) : ℚ)
    let imageWidth : ℚ := ((round ((endPos - start) * pixelRatio) : ℤ) : ℚ)
    let e1 : CanvasEntry :=
      { e with waveWidth := canvasWidth, elementWidth := waveWidth, left := viewStart,
               progress := if e.hasProgressCanvas then
                   e.progress.map (fun p => { p with width := canvasWidth, left := viewStart })
                 else e.progress }
    match e1.backimage with
    | none => Except.error ("TypeError: getAttribute on null backimage")
    | some src =>
      let waveDrawn : Except String Unit :=
        if src = "" then
          match backupImg with
          | some _ => Except.ok ()  -- scaled copies of the backup tiles are painted
          | none => Except.error ("TypeError: drawImage of null backupImg")
        else Except.ok ()  -- the cached backimage is painted stretched to imageWidth
      match waveDrawn with
      | Except.error msg => Except.error msg
      | Except.ok _ =>
        -- progImage = this.progress.querySelector; progress is null
        -- when no progress canvas was bound and the access throws
        match e1.progress with
        | none => Except.error ("TypeError: querySelector on null progress")
        | some _ => Except.ok (e1, endPos)

end CanvasEntry

/-- The wavesurfer initialisation options consumed by the renderer. -/
structure Params where
  waveColor : String
  progressColor : String
  barWidth : ℚ
  barGap : Option ℚ
  barMinHeight : ℚ
  barHeight : ℚ
  height : ℚ
  pixelRatio : ℚ
  maxCanvasWidth : ℚ
  normalize : Bool
  vertical : Bool
  splitChannels : Bool
  overlay : Bool
  relativeNormalization : Bool
  filterChannels : List ℕ
  barRadius : ℚ
deriving DecidableEq

/-- The MultiCanvas renderer state.  width and height are the drawer
fields set by the surrounding Drawer before updateSize runs. -/
structure MCState where
  params : Params
  maxCanvasWidth : ℚ
  maxCanvasElementWidth : ℚ
  hasProgressCanvas : Bool
  halfPixel : ℚ
  overlap : ℚ
  barRadius : ℚ
  vertical : Bool
  canvases : List CanvasEntry
  width : ℚ
  height : ℚ
  backupImage : Option (List Img)
deriving DecidableEq

namespace MultiCanvas

/-- The MultiCanvas constructor.  The progress wave is rendered exactly
when waveColor and progressColor differ; width and height start at the
Drawer defaults (modelled from the spec: the Drawer base class is not
part of the sources, it zeroes the width and scales the configured
height by the pixel ratio). -/
def initState (p : Params) : MCState :=
  { params := p
    maxCanvasWidth := p.maxCanvasWidth
    maxCanvasElementWidth := ((round (p.maxCanvasWidth / p.pixelRatio) : ℤ) : ℚ)
    hasProgressCanvas := p.waveColor ≠ p.progressColor
    halfPixel := (1 / 2) / p.pixelRatio
    overlap := 2 * ((⌈p.pixelRatio / 2⌉ : ℤ) : ℚ)
    barRadius := if p.barRadius = 0 then 0 else p.barRadius
    vertical := p.vertical
    canvases := []
    width := 0
    height := p.height * p.pixelRatio
    backupImage := none }

/-- The fresh entry appended by MultiCanvas.addCanvas when the canvas
list currently has len entries.  A progress canvas element is appended
for it exactly when the set renders a progress wave.  The wave canvas
starts with the DOM default raster size of 300 by 150. -/
def addCanvasEntry (s : MCState) (len : ℕ) : CanvasEntry :=
  { left := s.maxCanvasElementWidth * (len : ℚ)
    waveWidth := 300
    waveHeight := 150
    elementWidth := 0
    start := 0
    endFrac := 1
    drawn := false
    hasProgressCanvas := s.hasProgressCanvas
    halfPixel := s.halfPixel
    progress := if s.hasProgressCanvas then
        some { width := 300, height := 150, left := s.maxCanvasElementWidth * (len : ℚ) }
      else none
    backimage := none
    progBackimage := none
    waveData := "" }

/-- MultiCanvas.addCanvas: push one fresh entry. -/
def addCanvas (s : MCState) : MCState :=
  { s with canvases := s.canvases ++ [addCanvasEntry s s.canvases.length] }

/-- n repetitions of addCanvas (the add loop of updateSize). -/
def addCanvases (s : MCState) : ℕ → MCState
  | 0 => s
  | n + 1 => addCanvases (addCanvas s) n

/-- MultiCanvas.removeCanvas: pop the last entry. -/
def removeCanvas (s : MCState) : MCState :=
  { s with canvases := s.canvases.dropLast }

/-- The required canvas count computed by updateSize: the ceiling of
the element-space total width over the maximum element width plus the
overlap. -/
def requiredCanvases (s : MCState) : ℤ :=
  let totalWidth : ℤ := round (s.width / s.params.pixelRatio)
  ⌈(totalWidth : ℚ) / (s.maxCanvasElementWidth + s.overlap)⌉

/-- The two while loops of updateSize: add entries while below the
required count, drop trailing entries while above it.  For a negative
required count the source would fault popping an empty list; the model
simply empties the list, and the theorems below assume a nonnegative
width under which the count is nonnegative. -/
def adjustCount (s : MCState) (required : ℤ) : MCState :=
  if s.canvases.length < required.toNat then
    addCanvases s (required.toNat - s.canvases.length)
  else { s with canvases := s.canvases.take required.toNat }

/-- The body of the forEach of updateSize for the entry at index i,
given the canvas width chosen for it and the accumulated left offset:
setLeft, then updateDimensions (element width, fractional start and
end, raster dimensions, progress dimensions when a progress wave is
rendered), then clearWave (drawn reset, backimages blanked). -/
def layoutEntry (s : MCState) (canvasWidth leftOffset : ℚ) (e : CanvasEntry) : CanvasEntry :=
  let elementWidth : ℚ := ((round (canvasWidth / s.params.pixelRatio) : ℤ) : ℚ)
  let totalWidth : ℚ := ((round (s.width / s.params.pixelRatio) : ℤ) : ℚ)
  let start : ℚ := if totalWidth = 0 then 0 else leftOffset / totalWidth
  { e with
      left := leftOffset
      elementWidth := elementWidth
      start := start
      endFrac := start + elementWidth / totalWidth
      waveWidth := canvasWidth
      waveHeight := s.height
      progress := if e.hasProgressCanvas then
          e.progress.map (fun p => { p with width := canvasWidth, height := s.height, left := leftOffset })
        else e.progress
      drawn := false
      backimage := some ""
      progBackimage := if e.hasProgressCanvas then some "" else e.progBackimage
      waveData := e.waveData }

/-- The forEach of updateSize: every entry but the last is given the
maximum canvas width plus the overlap; the last is given the remaining
width; the left offset accumulates the element-space widths. -/
def layoutGo (s : MCState) (lastCanvas : ℤ) : ℕ → ℚ → List CanvasEntry → List CanvasEntry
  | _, _, [] => []
  | i, leftOffset, e :: rest =>
    let canvasWidth : ℚ :=
      if (i : ℤ) = lastCanvas then s.width - s.maxCanvasWidth * (lastCanvas : ℚ)
      else s.maxCanvasWidth + s.overlap
    layoutEntry s canvasWidth leftOffset e ::
      layoutGo s lastCanvas (i + 1) (leftOffset + canvasWidth / s.params.pixelRatio) rest

/-- MultiCanvas.updateSize: adjust the entry count to the required
count, then lay every entry out and clear it. -/
def updateSize (s : MCState) : MCState :=
  let required := requiredCanvases s
  let s1 := adjustCount s required
  { s1 with canvases := layoutGo s1 ((s1.canvases.length : ℤ) - 1) 0 0 s1.canvases }

/-- Modelled from the spec: the Drawer resize entry point stores the
new total width and height and delegates to updateSize (the Drawer
base class is not part of the sources). -/
def resize (s : MCState) (W H : ℚ) : MCState :=
  updateSize { s with width := W, height := H }

end MultiCanvas

/-- A peaks argument: either one flat sample array or one array per
channel (each channel flat, as the callers of the renderer supply). -/
inductive Peaks where
  | mono (ps : List ℚ)
  | multi (chs : List (List ℚ))
deriving DecidableEq

/-- The record prepareDraw hands to its render callback. -/
structure DrawArgs where
  absmax : ℚ
  hasMinVals : Bool
  height : ℚ
  offsetY : ℚ
  halfH : ℚ
  peaks : List ℚ
  channelIndex : ℕ
deriving DecidableEq

/-- One drawing operation emitted at the MultiCanvas level: a fillRect
routed across the canvases, or a drawLine dispatched to every entry.
Each records the channel it renders. -/
inductive DrawOp where
  | rect (x y w h radius : ℚ) (ch : ℕ)
  | line (peaks : List ℚ) (absmax halfH offsetY : ℚ) (startPx : ℚ) (endPx : Option ℚ) (ch : ℕ)
deriving DecidableEq

/-- The channel a drawing operation belongs to. -/
def DrawOp.chOf : DrawOp → ℕ
  | DrawOp.rect _ _ _ _ _ ch => ch
  | DrawOp.line _ _ _ _ _ _ ch => ch

namespace MultiCanvas

/-- MultiCanvas.hideChannel: a channel is skipped when split-channel
mode is on and its index is listed in filterChannels. -/
def hideChannel (s : MCState) (channelIndex : ℕ) : Bool :=
  s.params.splitChannels && s.params.filterChannels.contains channelIndex

/-- The drawIndex prepareDraw passes when recursing on channel i: the
position of that channel object in the filtered channel list (indexOf
compares object identity, so for distinct channel arrays this is the
count of visible channels before i), or -1 when the channel is hidden. -/
def drawIndexOf (s : MCState) (i : ℕ) : ℤ :=
  if hideChannel s i then -1
  else (((List.range i).filter (fun j => !hideChannel s j)).length : ℤ)

/-- The flat-peaks tail of prepareDraw, after channel unwrapping: the
hidden-channel early return, the absmax, hasMinVals, height and offset
computations, then the render callback.  The requestAnimationFrame
wrapper of the source defers the body without changing it and is
modelled as immediate. -/
def prepareDrawMono (s : MCState) (peaks : List ℚ) (channelIndex : ℕ)
    (drawIndex : Option ℤ) (normalizedMax : Option ℚ)
    (fn : DrawArgs → List DrawOp) : List DrawOp :=
  if hideChannel s channelIndex then []
  else
    let absmax0 : ℚ := 1 / s.params.barHeight
    let absmax : ℚ :=
      if s.params.normalize then
        match normalizedMax with
        | none => absMaxUtil peaks
        | some m => m
      else absmax0
    let hasMinVals : Bool := peaks.any (fun v => v < 0)
    let height : ℚ := s.params.height * s.params.pixelRatio
    let halfH : ℚ := height / 2
    let offsetY0 : ℚ :=
      match drawIndex with
      | none => 0
      | some d => height * (d : ℚ)
    let offsetY : ℚ := if s.params.overlay then 0 else offsetY0
    fn { absmax := absmax, hasMinVals := hasMinVals, height := height,
         offsetY := offsetY, halfH := halfH, peaks := peaks,
         channelIndex := channelIndex }

/-- MultiCanvas.prepareDraw.  A nested peaks value in split-channel
mode recurses once per channel, every channel flat, so the recursion is
unfolded into one pass of prepareDrawMono per channel; outside
split-channel mode only the first channel is taken.  A nested value
with no channels is indistinguishable from an empty flat array in the
source (the instanceof check looks at the first element).  The
setHeight call of the split branch resizes the drawer and emits no
drawing operation.  The render callback closes over start and end, so
they are not threaded through. -/
def prepareDraw (s : MCState) (peaks : Peaks) (channelIndex : ℕ)
    (drawIndex : Option ℤ) (normalizedMax : Option ℚ)
    (fn : DrawArgs → List DrawOp) : List DrawOp :=
  match peaks with
  | Peaks.multi (c0 :: rest) =>
    if s.params.splitChannels then
      let channels := c0 :: rest
      let overallAbsMax : Option ℚ :=
        if s.params.relativeNormalization then
          some (maxUtil (channels.map (fun cp => absMaxUtil cp)))
        else none
      (channels.enum.map (fun ic =>
        prepareDrawMono s ic.2 ic.1 (some (drawIndexOf s ic.1)) overallAbsMax fn)).flatten
    else prepareDrawMono s c0 channelIndex drawIndex normalizedMax fn
  | Peaks.multi [] => prepareDrawMono s [] channelIndex drawIndex normalizedMax fn
  | Peaks.mono ps => prepareDrawMono s ps channelIndex drawIndex normalizedMax fn

/-- The bar pixel width of drawBars: barWidth scaled by the pixel
ratio. -/
def barOf (s : MCState) : ℚ := s.params.barWidth * s.params.pixelRatio

/-- The gap of drawBars: with no configured barGap, the larger of the
pixel ratio and half the bar width truncated; with a configured barGap,
the larger of the pixel ratio and the scaled barGap. -/
def gapOf (s : MCState) : ℚ :=
  match s.params.barGap with
  | none => max s.params.pixelRatio ((jsTrunc32 (barOf s / 2) : ℤ) : ℚ)
  | some g => max s.params.pixelRatio (g * s.params.pixelRatio)

/-- The loop increment of drawBars: bar plus gap. -/
def stepOf (s : MCState) : ℚ := barOf s + gapOf s

/-- The number of iterations of the bar loop from first while below
last in increments of step.  The loop-exactness theorem below shows the
guard holds at every earlier iteration and fails here. -/
def barIterCount (first last step : ℚ) : ℕ :=
  if step ≤ 0 then 0 else (⌈(last - first) / step⌉).toNat

/-- The number of iterations of the do-while peak scan from startR
while below endR in increments of scaleIdx: at least one, since the
body runs before the guard. -/
def innerCount (startR endR : ℤ) (scaleIdx : ℕ) : ℕ :=
  max 1 ((⌈((endR - startR : ℤ) : ℚ) / (scaleIdx : ℚ)⌉).toNat)

/-- The do-while scan of drawBars: the largest absolute sample met on
the scanned index range (acc starts at 0 and only grows). -/
def scanPeak (peaks : List ℚ) (startR : ℤ) (scaleIdx : ℕ) (m : ℕ) : ℚ :=
  (List.range m).foldl (fun acc t =>
    let newPeak := |nthPeak peaks (startR + (t : ℤ) * (scaleIdx : ℤ))|
    if newPeak > acc then newPeak else acc) 0

/-- The render callback of drawBars.  With no start offset it draws
nothing at all (the empty-state early return of the source).  An
undefined end makes the loop guard false at once, so nothing is drawn
either. -/
def barsFn (s : MCState) (startPx endPx : Option ℚ) (args : DrawArgs) : List DrawOp :=
  match startPx with
  | none => []
  | some first =>
    match endPx with
    | none => []
    | some last =>
      let peakIndexScale : ℕ := if args.hasMinVals then 2 else 1
      let length : ℚ := (args.peaks.length : ℚ) / (peakIndexScale : ℚ)
      let bar := barOf s
      let step := bar + gapOf s
      let scale : ℚ := length / s.width
      (List.range (barIterCount first last step)).map (fun k =>
        let peakIndex : ℚ := first + (k : ℚ) * step
        let startR : ℤ := ⌊peakIndex * scale⌋ * (peakIndexScale : ℤ)
        let endR : ℤ := ⌊(peakIndex + step) * scale⌋ * (peakIndexScale : ℤ)
        let peak : ℚ := scanPeak args.peaks startR peakIndexScale (innerCount startR endR peakIndexScale)
        let h0 : ℤ := round (peak / args.absmax * args.halfH)
        let h : ℚ := if s.params.barMinHeight ≠ 0 then max ((h0 : ℚ)) s.params.barMinHeight else (h0 : ℚ)
        DrawOp.rect (peakIndex + s.halfPixel) (args.halfH - h + args.offsetY)
          (bar + s.halfPixel) (h * 2) s.barRadius args.channelIndex)

/-- MultiCanvas.drawBars. -/
def drawBars (s : MCState) (peaks : Peaks) (channelIndex : ℕ)
    (startPx endPx : Option ℚ) : List DrawOp :=
  prepareDraw s peaks channelIndex none none (barsFn s startPx endPx)

/-- The median line rectangle drawWave always fills. -/
def medianLineOp (s : MCState) (halfH offsetY : ℚ) (ch : ℕ) : DrawOp :=
  DrawOp.rect 0 (halfH + offsetY - s.halfPixel) s.width s.halfPixel s.barRadius ch

/-- The render callback of drawWave: peaks without negative values are
mirrored into interleaved pairs; with a start offset the polyline is
dispatched; the median line is always filled. -/
def waveFn (s : MCState) (startPx endPx : Option ℚ) (args : DrawArgs) : List DrawOp :=
  let peaks : List ℚ :=
    if args.hasMinVals then args.peaks
    else args.peaks.flatMap (fun v => [v, -v])
  (match startPx with
   | some st => [DrawOp.line peaks args.absmax args.halfH args.offsetY st endPx args.channelIndex]
   | none => [])
  ++ [medianLineOp s args.halfH args.offsetY args.channelIndex]

/-- MultiCanvas.drawWave. -/
def drawWave (s : MCState) (peaks : Peaks) (channelIndex : ℕ)
    (startPx endPx : Option ℚ) : List DrawOp :=
  prepareDraw s peaks channelIndex none none (waveFn s startPx endPx)

end MultiCanvas

/-- The value MultiCanvas.getImage returns: nothing (undefined in the
source), a single data URL, an ordered list of data URLs, or the
promised list of blobs. -/
inductive MCImage where
  | undef
  | single (u : String)
  | list (us : List String)
  | blobs (bs : List String)
deriving DecidableEq

namespace MultiCanvas

/-- MultiCanvas.getImage: the blob type maps every entry through a
promise; the dataURL type returns the array when more than one entry
exists and otherwise its first element, which for an empty canvas list
is undefined; any other type falls through and returns undefined. -/
def getImage (s : MCState) (format : String) (quality : ℚ) (type : String) : MCImage :=
  if type = "blob" then
    MCImage.blobs (s.canvases.map (fun e => CanvasEntry.encodeImage format quality e.waveData))
  else if type = "dataURL" then
    let images := s.canvases.map (fun e => CanvasEntry.encodeImage format quality e.waveData)
    if 1 < images.length then MCImage.list images
    else
      match images with
      | [u] => MCImage.single u
      | _ => MCImage.undef
  else MCImage.undef

end MultiCanvas

/-- The state-mutating renderer operations modelled here: the resize
entry point, the canvas add and remove primitives it loops over, the
whole-set clear, and the startup createElements (which appends the
first canvas).  The drawing entry points emit operations and leave the
surface-set state unchanged in this embedding. -/
inductive MCOp where
  | resizeOp (W H : ℚ)
  | addCanvasOp
  | removeCanvasOp
  | clearOp
  | initOp
deriving DecidableEq

namespace MultiCanvas

/-- CanvasEntry.clearWave on one entry: both rasters cleared, the
backimages blanked (the progress one only when a progress canvas is
rendered), drawn reset. -/
def clearEntry (e : CanvasEntry) : CanvasEntry :=
  { e with drawn := false
           backimage := some ""
           progBackimage := if e.hasProgressCanvas then some "" else e.progBackimage }

/-- Apply one modelled operation to the state. -/
def applyOp : MCOp → MCState → MCState
  | MCOp.resizeOp W H, s => resize s W H
  | MCOp.addCanvasOp, s => addCanvas s
  | MCOp.removeCanvasOp, s => removeCanvas s
  | MCOp.clearOp, s => { s with canvases := s.canvases.map clearEntry }
  | MCOp.initOp, s => addCanvas s

/-- The progress-overlay invariant of the surface set: the set-level
flag agrees with the color comparison of the configuration, every
entry carries the same flag, and an entry owns a progress canvas
exactly when the flag is set. -/
def progInvariant (s : MCState) : Prop :=
  (s.hasProgressCanvas = decide (s.params.waveColor ≠ s.params.progressColor)) ∧
  ∀ e ∈ s.canvases,
    e.hasProgressCanvas = s.hasProgressCanvas ∧ e.progress.isSome = s.hasProgressCanvas

instance (s : MCState) : Decidable (progInvariant s) := by
  unfold progInvariant; infer_instance

end MultiCanvas

/-! ## Theorems -/

/-- C5: fillRect height normalization.  A zero height is a no-op on
both the rounded and the square path (under the standard canvas
semantics of a zero-extent fillRect); a negative height paints exactly
what the magnitude height at the shifted origin paints, for every
radius. -/
theorem fillRect_height_normalization (x y w h radius : ℚ) :
    (h = 0 → effects ((CanvasEntry.fillRectToContext x y w h radius).map normCall) = []) ∧
    (h < 0 → (CanvasEntry.fillRectToContext x y w h radius).map normCall
      = (CanvasEntry.fillRectToContext x (y + h) w (-h) radius).map normCall) := by
  constructor
  · intro h0
    subst h0
    by_cases hr : radius = 0
    · simp [CanvasEntry.fillRectToContext, hr, normCall, effects]
    · simp [CanvasEntry.fillRectToContext, hr, CanvasEntry.drawRoundedRect, effects]
  · intro hneg
    have hne : h ≠ 0 := ne_of_lt hneg
    have hnegne : -h ≠ 0 := by simpa using hne
    have hnotlt : ¬(-h < 0) := by linarith
    by_cases hr : radius = 0
    · rw [CanvasEntry.fillRectToContext, if_neg (fun hc => hc hr),
        CanvasEntry.fillRectToContext, if_neg (fun hc => hc hr)]
      simp only [List.map_cons, List.map_nil, normCall]
      by_cases hw : w = 0
      · simp [hw, hne, hnegne]
      · have h1 : ¬(w = 0 ∨ h = 0) := by tauto
        have h2 : ¬(w = 0 ∨ -h = 0) := by tauto
        rw [if_neg h1, if_neg h2]
        have hy : y + h + -h = y := by ring
        rw [hy, min_comm (y + h) y, abs_neg]
    · rw [CanvasEntry.fillRectToContext, if_pos hr, CanvasEntry.fillRectToContext, if_pos hr]
      simp only [CanvasEntry.drawRoundedRect, if_neg hne, if_neg hnegne,
        if_pos hneg, if_neg hnotlt]
      ring_nf

/-- Witness for C5 at a concrete rectangle: zero height on the rounded
path, negative height on the square path. -/
theorem fillRect_height_normalization_witness :
    (effects ((CanvasEntry.fillRectToContext 1 2 3 0 1).map normCall) = []) ∧
    ((CanvasEntry.fillRectToContext 1 2 3 (-4) 0).map normCall
      = (CanvasEntry.fillRectToContext 1 (2 + -4) 3 (-(-4)) 0).map normCall) :=
  ⟨(fillRect_height_normalization 1 2 3 0 1).1 rfl,
   (fillRect_height_normalization 1 2 3 (-4) 0).2 (by norm_num)⟩

/-- A concrete entry bound without a progress canvas, exactly as
addCanvas creates one when waveColor equals progressColor (progress
node and context are null). -/
def entryNoProgress : CanvasEntry :=
  { left := 0, waveWidth := 300, waveHeight := 150, elementWidth := 0,
    start := 0, endFrac := 1, drawn := false, hasProgressCanvas := false,
    halfPixel := 1 / 2, progress := none, backimage := none,
    progBackimage := none, waveData := "" }

/-- C4 evaluation at the failing input: with no progress canvas bound,
stretchBackimage is never a no-op on the progress store; it throws.
Out of frame it dereferences the null progress context for clearRect;
in frame it calls querySelector on the null progress node. -/
theorem stretchBackimage_null_progress_throws :
    (CanvasEntry.stretchBackimage entryNoProgress 10 100 1 (0, 5) none
      = Except.error ("TypeError: clearRect on null progressCtx")) ∧
    (CanvasEntry.stretchBackimage { entryNoProgress with backimage := some ("cached") } 0 100 1 (0, 5) none
      = Except.error ("TypeError: querySelector on null progress")) := by
  constructor
  · rfl
  · norm_num [CanvasEntry.stretchBackimage, entryNoProgress]
    rw [if_neg (by decide : ¬("cached" = ""))]

/-- Length of the add loop result. -/
lemma addCanvases_length : ∀ (n : ℕ) (s : MCState),
    (MultiCanvas.addCanvases s n).canvases.length = s.canvases.length + n
  | 0, _ => rfl
  | n + 1, s => by
    have h := addCanvases_length n (MultiCanvas.addCanvas s)
    have h2 : (MultiCanvas.addCanvas s).canvases.length = s.canvases.length + 1 := by
      simp [MultiCanvas.addCanvas]
    show (MultiCanvas.addCanvases (MultiCanvas.addCanvas s) n).canvases.length
      = s.canvases.length + (n + 1)
    rw [h, h2]
    omega

/-- The two while loops leave exactly the required count of entries. -/
lemma adjustCount_length (s : MCState) (r : ℤ) :
    (MultiCanvas.adjustCount s r).canvases.length = r.toNat := by
  unfold MultiCanvas.adjustCount
  split
  · rw [addCanvases_length]; omega
  · simp only [List.length_take]; omega

/-- The layout pass preserves the entry count. -/
lemma layoutGo_length (s : MCState) (lc : ℤ) : ∀ (cs : List CanvasEntry) (i : ℕ) (off : ℚ),
    (MultiCanvas.layoutGo s lc i off cs).length = cs.length
  | [], _, _ => rfl
  | _ :: rest, i, off => by
    simp only [MultiCanvas.layoutGo, List.length_cons]
    rw [layoutGo_length s lc rest]

/-- updateSize leaves exactly the required count of entries. -/
lemma updateSize_length (s : MCState) :
    (MultiCanvas.updateSize s).canvases.length = (MultiCanvas.requiredCanvases s).toNat := by
  simp only [MultiCanvas.updateSize]
  rw [layoutGo_length, adjustCount_length]

/-- C1: after every updateSize the number of canvases equals the
ceiling of the element-space total width over the maximum canvas
element width plus the overlap, for every incoming state with a
nonnegative width, a positive pixel ratio and a positive divisor. -/
theorem updateSize_surface_count (s : MCState) (hw : 0 ≤ s.width)
    (hpr : 0 < s.params.pixelRatio) (hden : 0 < s.maxCanvasElementWidth + s.overlap) :
    ((MultiCanvas.updateSize s).canvases.length : ℤ)
      = ⌈((round (s.width / s.params.pixelRatio) : ℤ) : ℚ)
          / (s.maxCanvasElementWidth + s.overlap)⌉ := by
  have hq : (0 : ℚ) ≤ s.width / s.params.pixelRatio := div_nonneg hw (le_of_lt hpr)
  have hr0 : (0 : ℤ) ≤ round (s.width / s.params.pixelRatio) := by
    rw [round_eq]
    exact Int.floor_nonneg.mpr (by linarith)
  have hreq : 0 ≤ MultiCanvas.requiredCanvases s := by
    unfold MultiCanvas.requiredCanvases
    exact Int.ceil_nonneg (div_nonneg (by exact_mod_cast hr0) (le_of_lt hden))
  rw [updateSize_length, Int.toNat_of_nonneg hreq]
  rfl

/-- Sample renderer configuration used by the witnesses. -/
def sampleParams : Params :=
  { waveColor := "blue", progressColor := "purple", barWidth := 1, barGap := none,
    barMinHeight := 0, barHeight := 1, height := 5, pixelRatio := 1,
    maxCanvasWidth := 4, normalize := false, vertical := false, splitChannels := false,
    overlay := false, relativeNormalization := false, filterChannels := [],
    barRadius := 0 }

/-- Sample renderer state: as constructed from sampleParams (pixel
ratio one, so the element width equals the maximum canvas width and
the overlap is two), resized to ten pixels wide.  Written as literals
so the sample is decidable without unfolding the floor instances. -/
def sampleState : MCState :=
  { params := sampleParams
    maxCanvasWidth := 4
    maxCanvasElementWidth := 4
    hasProgressCanvas := true
    halfPixel := 1 / 2
    overlap := 2
    barRadius := 0
    vertical := false
    canvases := []
    width := 10
    height := 5
    backupImage := none }

/-- Witness for C1: the sample state is ten pixels wide at pixel ratio
one with a four pixel maximum element width and overlap two, and
updateSize leaves the ceiling of ten sixths, that is two, canvases. -/
theorem updateSize_surface_count_witness :
    ((MultiCanvas.updateSize sampleState).canvases.length : ℤ)
      = ⌈((round (sampleState.width / sampleState.params.pixelRatio) : ℤ) : ℚ)
          / (sampleState.maxCanvasElementWidth + sampleState.overlap)⌉ :=
  updateSize_surface_count sampleState (by norm_num [sampleState])
    (by norm_num [sampleState, sampleParams]) (by norm_num [sampleState])

/-- The add loop touches only the canvas list. -/
lemma addCanvases_proj : ∀ (n : ℕ) (s : MCState),
    (MultiCanvas.addCanvases s n).params = s.params ∧
    (MultiCanvas.addCanvases s n).width = s.width ∧
    (MultiCanvas.addCanvases s n).height = s.height ∧
    (MultiCanvas.addCanvases s n).maxCanvasElementWidth = s.maxCanvasElementWidth ∧
    (MultiCanvas.addCanvases s n).overlap = s.overlap ∧
    (MultiCanvas.addCanvases s n).hasProgressCanvas = s.hasProgressCanvas
  | 0, _ => ⟨rfl, rfl, rfl, rfl, rfl, rfl⟩
  | n + 1, s => addCanvases_proj n (MultiCanvas.addCanvas s)

/-- The count adjustment touches only the canvas list. -/
lemma adjustCount_proj (s : MCState) (r : ℤ) :
    (MultiCanvas.adjustCount s r).params = s.params ∧
    (MultiCanvas.adjustCount s r).width = s.width ∧
    (MultiCanvas.adjustCount s r).height = s.height ∧
    (MultiCanvas.adjustCount s r).maxCanvasElementWidth = s.maxCanvasElementWidth ∧
    (MultiCanvas.adjustCount s r).overlap = s.overlap ∧
    (MultiCanvas.adjustCount s r).hasProgressCanvas = s.hasProgressCanvas := by
  unfold MultiCanvas.adjustCount
  split
  · exact addCanvases_proj _ _
  · exact ⟨rfl, rfl, rfl, rfl, rfl, rfl⟩

/-- updateSize touches only the canvas list. -/
lemma updateSize_proj (s : MCState) :
    (MultiCanvas.updateSize s).params = s.params ∧
    (MultiCanvas.updateSize s).width = s.width ∧
    (MultiCanvas.updateSize s).height = s.height ∧
    (MultiCanvas.updateSize s).maxCanvasElementWidth = s.maxCanvasElementWidth ∧
    (MultiCanvas.updateSize s).overlap = s.overlap ∧
    (MultiCanvas.updateSize s).hasProgressCanvas = s.hasProgressCanvas := by
  simp only [MultiCanvas.updateSize]
  exact adjustCount_proj _ _

/-- The required count is unchanged by updateSize, which never writes
the fields it reads. -/
lemma requiredCanvases_updateSize (s : MCState) :
    MultiCanvas.requiredCanvases (MultiCanvas.updateSize s) = MultiCanvas.requiredCanvases s := by
  obtain ⟨hp, hw, _, hm, ho, _⟩ := updateSize_proj s
  unfold MultiCanvas.requiredCanvases
  rw [hp, hw, hm, ho]

/-- The layout pass reads none of the canvas list of its state
argument, so replacing that list changes nothing. -/
lemma layoutGo_set_canvases (s : MCState) (X : List CanvasEntry) (lc : ℤ) :
    ∀ (cs : List CanvasEntry) (i : ℕ) (off : ℚ),
      MultiCanvas.layoutGo { s with canvases := X } lc i off cs
        = MultiCanvas.layoutGo s lc i off cs
  | [], _, _ => rfl
  | e :: rest, i, off => by
    simp only [MultiCanvas.layoutGo]
    exact congrArg _ (layoutGo_set_canvases s X lc rest (i + 1) _)

/-- The forEach body of updateSize writes every field it depends on to
a value that does not depend on the entry, so it is idempotent. -/
lemma layoutEntry_idem (s : MCState) (cw off : ℚ) (e : CanvasEntry) :
    MultiCanvas.layoutEntry s cw off (MultiCanvas.layoutEntry s cw off e)
      = MultiCanvas.layoutEntry s cw off e := by
  obtain ⟨l, ww, wh, ew, st, en, dr, hpc, hp, pr, bi, pbi, wd⟩ := e
  simp only [MultiCanvas.layoutEntry]
  cases hpc
  · simp
  · cases pr <;> simp

/-- The layout pass is idempotent at matching index and offset. -/
lemma layoutGo_idem (s : MCState) (lc : ℤ) :
    ∀ (cs : List CanvasEntry) (i : ℕ) (off : ℚ),
      MultiCanvas.layoutGo s lc i off (MultiCanvas.layoutGo s lc i off cs)
        = MultiCanvas.layoutGo s lc i off cs
  | [], _, _ => rfl
  | e :: rest, i, off => by
    simp only [MultiCanvas.layoutGo]
    rw [layoutEntry_idem, layoutGo_idem s lc rest (i + 1) _]

/-- The while loops do nothing when the count already matches. -/
lemma adjustCount_self (s : MCState) (r : ℤ) (h : s.canvases.length = r.toNat) :
    MultiCanvas.adjustCount s r = s := by
  unfold MultiCanvas.adjustCount
  rw [if_neg (by omega)]
  have ht : s.canvases.take r.toNat = s.canvases := by
    rw [← h]
    exact List.take_length _
  rw [ht]

/-- updateSize is idempotent on the whole state. -/
lemma updateSize_updateSize (s : MCState) :
    MultiCanvas.updateSize (MultiCanvas.updateSize s) = MultiCanvas.updateSize s := by
  have hrw : ∀ t : MCState, MultiCanvas.updateSize t
      = { MultiCanvas.adjustCount t (MultiCanvas.requiredCanvases t) with
          canvases := MultiCanvas.layoutGo (MultiCanvas.adjustCount t (MultiCanvas.requiredCanvases t))
            (((MultiCanvas.adjustCount t (MultiCanvas.requiredCanvases t)).canvases.length : ℤ) - 1) 0 0
            (MultiCanvas.adjustCount t (MultiCanvas.requiredCanvases t)).canvases } :=
    fun _ => rfl
  have hlen : (MultiCanvas.updateSize s).canvases.length
      = (MultiCanvas.requiredCanvases (MultiCanvas.updateSize s)).toNat := by
    rw [requiredCanvases_updateSize]
    exact updateSize_length s
  rw [hrw (MultiCanvas.updateSize s), adjustCount_self _ _ hlen]
  have key : MultiCanvas.layoutGo (MultiCanvas.updateSize s)
      (((MultiCanvas.updateSize s).canvases.length : ℤ) - 1) 0 0
      (MultiCanvas.updateSize s).canvases = (MultiCanvas.updateSize s).canvases := by
    conv_lhs => rw [hrw s]
    conv_rhs => rw [hrw s]
    simp only [layoutGo_set_canvases]
    rw [layoutGo_length]
    exact layoutGo_idem _ _ _ _ _
  rw [key]

/-- C6: resize is idempotent on the surface-set layout: a second
resize with the same width and height leaves the same surface count,
the same per-surface left offsets and the same per-surface widths. -/
theorem resize_idempotent (s : MCState) (W H : ℚ) :
    ((MultiCanvas.resize (MultiCanvas.resize s W H) W H).canvases.length
      = (MultiCanvas.resize s W H).canvases.length) ∧
    ((MultiCanvas.resize (MultiCanvas.resize s W H) W H).canvases.map (fun e => e.left)
      = (MultiCanvas.resize s W H).canvases.map (fun e => e.left)) ∧
    ((MultiCanvas.resize (MultiCanvas.resize s W H) W H).canvases.map (fun e => e.waveWidth)
      = (MultiCanvas.resize s W H).canvases.map (fun e => e.waveWidth)) := by
  have h : MultiCanvas.resize (MultiCanvas.resize s W H) W H = MultiCanvas.resize s W H := by
    unfold MultiCanvas.resize
    set u := MultiCanvas.updateSize { s with width := W, height := H } with hu
    have h1 : u.width = W := by rw [hu]; exact (updateSize_proj _).2.1
    have h2 : u.height = H := by rw [hu]; exact (updateSize_proj _).2.2.1
    have hset : ({ u with width := W, height := H } : MCState) = u := by
      rw [← h1, ← h2]
    rw [hset, hu, updateSize_updateSize]
  rw [h]
  exact ⟨rfl, rfl, rfl⟩

/-- One entry satisfies the progress-overlay invariant relative to a
flag value. -/
def entryProgInv (flag : Bool) (e : CanvasEntry) : Prop :=
  e.hasProgressCanvas = flag ∧ e.progress.isSome = flag

/-- The layout body preserves the per-entry invariant: the flag is
copied and the progress option is only mapped, never created or
dropped. -/
lemma layoutEntry_entryProgInv (s : MCState) (cw off : ℚ) (e : CanvasEntry) (flag : Bool)
    (h : entryProgInv flag e) : entryProgInv flag (MultiCanvas.layoutEntry s cw off e) := by
  obtain ⟨h1, h2⟩ := h
  constructor
  · exact h1
  · show (if e.hasProgressCanvas then e.progress.map _ else e.progress).isSome = flag
    by_cases hc : e.hasProgressCanvas
    · rw [if_pos hc]
      cases hp : e.progress <;> (rw [hp] at h2; simpa using h2)
    · rw [if_neg hc]
      exact h2

/-- The layout pass preserves the per-entry invariant. -/
lemma layoutGo_entryProgInv (s : MCState) (lc : ℤ) (flag : Bool) :
    ∀ (cs : List CanvasEntry) (i : ℕ) (off : ℚ), (∀ e ∈ cs, entryProgInv flag e) →
      ∀ e ∈ MultiCanvas.layoutGo s lc i off cs, entryProgInv flag e
  | [], _, _, _ => by intro e he; cases he
  | c :: rest, i, off, h => by
    intro e he
    simp only [MultiCanvas.layoutGo, List.mem_cons] at he
    rcases he with he | he
    · subst he
      exact layoutEntry_entryProgInv s _ _ c flag (h c (List.mem_cons_self c rest))
    · exact layoutGo_entryProgInv s lc flag rest (i + 1) _
        (fun x hx => h x (List.mem_cons_of_mem c hx)) e he

/-- A fresh entry satisfies the per-entry invariant for the flag of the
state that created it. -/
lemma addCanvasEntry_entryProgInv (s : MCState) (len : ℕ) :
    entryProgInv s.hasProgressCanvas (MultiCanvas.addCanvasEntry s len) := by
  cases h : s.hasProgressCanvas <;>
    simp [entryProgInv, MultiCanvas.addCanvasEntry, h]

/-- addCanvas preserves the progress-overlay invariant. -/
lemma addCanvas_progInvariant (s : MCState) (h : MultiCanvas.progInvariant s) :
    MultiCanvas.progInvariant (MultiCanvas.addCanvas s) := by
  obtain ⟨h1, h2⟩ := h
  refine ⟨h1, ?_⟩
  intro e he
  simp only [MultiCanvas.addCanvas, List.mem_append, List.mem_singleton] at he
  rcases he with he | he
  · exact h2 e he
  · subst he
    exact addCanvasEntry_entryProgInv s _

/-- The add loop preserves the progress-overlay invariant. -/
lemma addCanvases_progInvariant : ∀ (n : ℕ) (s : MCState),
    MultiCanvas.progInvariant s → MultiCanvas.progInvariant (MultiCanvas.addCanvases s n)
  | 0, _, h => h
  | n + 1, s, h => addCanvases_progInvariant n (MultiCanvas.addCanvas s) (addCanvas_progInvariant s h)

/-- The count adjustment preserves the progress-overlay invariant. -/
lemma adjustCount_progInvariant (s : MCState) (r : ℤ) (h : MultiCanvas.progInvariant s) :
    MultiCanvas.progInvariant (MultiCanvas.adjustCount s r) := by
  unfold MultiCanvas.adjustCount
  split
  · exact addCanvases_progInvariant _ s h
  · exact ⟨h.1, fun e he => h.2 e (List.mem_of_mem_take he)⟩

/-- updateSize preserves the progress-overlay invariant. -/
lemma updateSize_progInvariant (s : MCState) (h : MultiCanvas.progInvariant s) :
    MultiCanvas.progInvariant (MultiCanvas.updateSize s) := by
  have h1 := adjustCount_progInvariant s (MultiCanvas.requiredCanvases s) h
  simp only [MultiCanvas.updateSize]
  refine ⟨h1.1, ?_⟩
  intro e he
  exact layoutGo_entryProgInv _ _ _ _ _ _ (fun x hx => h1.2 x hx) e he

/-- C9: the progress-overlay flag equals the color comparison at
construction, is never changed by any modelled operation, and every
entry carries the flag and owns a progress canvas exactly when the
flag is set; every operation preserves this invariant. -/
theorem progress_overlay_flag_invariant :
    (∀ p : Params, MultiCanvas.progInvariant (MultiCanvas.initState p)) ∧
    (∀ (op : MCOp) (s : MCState),
      (MultiCanvas.applyOp op s).hasProgressCanvas = s.hasProgressCanvas ∧
      (MultiCanvas.applyOp op s).params = s.params ∧
      (MultiCanvas.progInvariant s → MultiCanvas.progInvariant (MultiCanvas.applyOp op s))) := by
  constructor
  · intro p
    exact ⟨rfl, by intro e he; cases he⟩
  · intro op s
    cases op with
    | resizeOp W H =>
      refine ⟨(updateSize_proj _).2.2.2.2.2, (updateSize_proj _).1, ?_⟩
      intro h
      exact updateSize_progInvariant _ ⟨h.1, h.2⟩
    | addCanvasOp =>
      exact ⟨rfl, rfl, addCanvas_progInvariant s⟩
    | removeCanvasOp =>
      refine ⟨rfl, rfl, ?_⟩
      intro h
      exact ⟨h.1, fun e he => h.2 e (List.dropLast_subset _ he)⟩
    | clearOp =>
      refine ⟨rfl, rfl, ?_⟩
      intro h
      refine ⟨h.1, ?_⟩
      intro e he
      simp only [MultiCanvas.applyOp, List.mem_map] at he
      obtain ⟨e0, he0, rfl⟩ := he
      obtain ⟨g1, g2⟩ := h.2 e0 he0
      exact ⟨g1, g2⟩
    | initOp =>
      exact ⟨rfl, rfl, addCanvas_progInvariant s⟩

/-- Witness for C9: the invariant is preserved by addCanvas on the
sample state, whose flag is set since blue differs from purple. -/
theorem progress_overlay_flag_invariant_witness :
    (MultiCanvas.applyOp MCOp.addCanvasOp sampleState).hasProgressCanvas
      = sampleState.hasProgressCanvas ∧
    (MultiCanvas.applyOp MCOp.addCanvasOp sampleState).params = sampleState.params ∧
    MultiCanvas.progInvariant (MultiCanvas.applyOp MCOp.addCanvasOp sampleState) :=
  ⟨(progress_overlay_flag_invariant.2 MCOp.addCanvasOp sampleState).1,
   (progress_overlay_flag_invariant.2 MCOp.addCanvasOp sampleState).2.1,
   (progress_overlay_flag_invariant.2 MCOp.addCanvasOp sampleState).2.2 (by decide)⟩

/-- Membership in the loop index range. -/
lemma mem_intRange {a b k : ℤ} : k ∈ intRange a b ↔ a ≤ k ∧ k < b := by
  unfold intRange
  constructor
  · intro hk
    obtain ⟨m, hm, he⟩ := List.mem_map.mp hk
    rw [List.mem_range] at hm
    omega
  · rintro ⟨h1, h2⟩
    refine List.mem_map.mpr ⟨(k - a).toNat, ?_, ?_⟩
    · rw [List.mem_range]
      omega
    · omega

/-- A callback that draws nothing makes prepareDrawMono draw nothing. -/
lemma prepareDrawMono_empty (s : MCState) (ps : List ℚ) (ch : ℕ) (d : Option ℤ)
    (nm : Option ℚ) (fn : DrawArgs → List DrawOp) (hfn : ∀ args, fn args = []) :
    MultiCanvas.prepareDrawMono s ps ch d nm fn = [] := by
  unfold MultiCanvas.prepareDrawMono
  split
  · rfl
  · exact hfn _

/-- A callback that draws nothing makes prepareDraw draw nothing. -/
lemma prepareDraw_empty (s : MCState) (peaks : Peaks) (ch : ℕ) (d : Option ℤ)
    (nm : Option ℚ) (fn : DrawArgs → List DrawOp) (hfn : ∀ args, fn args = []) :
    MultiCanvas.prepareDraw s peaks ch d nm fn = [] := by
  cases peaks with
  | mono ps => exact prepareDrawMono_empty s ps ch d nm fn hfn
  | multi chs =>
    cases chs with
    | nil => exact prepareDrawMono_empty s [] ch d nm fn hfn
    | cons c0 rest =>
      simp only [MultiCanvas.prepareDraw]
      split
      · rw [List.flatten_eq_nil_iff]
        intro l hl
        simp only [List.mem_map] at hl
        obtain ⟨ic, _, rfl⟩ := hl
        exact prepareDrawMono_empty s _ _ _ _ fn hfn
      · exact prepareDrawMono_empty s c0 ch d nm fn hfn

/-- Every operation prepareDrawMono emits comes from the callback run
on a visible channel, with the channel index it was called for. -/
lemma prepareDrawMono_mem (s : MCState) (ps : List ℚ) (ch : ℕ) (d : Option ℤ)
    (nm : Option ℚ) (fn : DrawArgs → List DrawOp) (P : DrawOp → Prop)
    (hfn : ∀ args : DrawArgs, args.channelIndex = ch → ∀ op ∈ fn args, P op) :
    ∀ op ∈ MultiCanvas.prepareDrawMono s ps ch d nm fn,
      MultiCanvas.hideChannel s ch = false ∧ P op := by
  unfold MultiCanvas.prepareDrawMono
  split
  · intro op hop
    cases hop
  · rename_i hhide
    intro op hop
    exact ⟨by simpa using hhide, hfn _ rfl op hop⟩

/-- Every operation prepareDraw emits belongs to a channel that is not
hidden, provided the callback tags its operations with the channel it
is invoked for. -/
lemma prepareDraw_channel_visible (s : MCState) (peaks : Peaks) (ch : ℕ) (d : Option ℤ)
    (nm : Option ℚ) (fn : DrawArgs → List DrawOp)
    (hfn : ∀ args : DrawArgs, ∀ op ∈ fn args, DrawOp.chOf op = args.channelIndex) :
    ∀ op ∈ MultiCanvas.prepareDraw s peaks ch d nm fn,
      MultiCanvas.hideChannel s (DrawOp.chOf op) = false := by
  have hmono : ∀ (ps : List ℚ) (c : ℕ) (d0 : Option ℤ) (nm0 : Option ℚ),
      ∀ op ∈ MultiCanvas.prepareDrawMono s ps c d0 nm0 fn,
        MultiCanvas.hideChannel s (DrawOp.chOf op) = false := by
    intro ps c d0 nm0 op hop
    have h := prepareDrawMono_mem s ps c d0 nm0 fn (fun op => DrawOp.chOf op = c)
      (fun args hargs op hop => by
        have hgoal := hfn args op hop
        rw [hargs] at hgoal
        exact hgoal) op hop
    rw [h.2]
    exact h.1
  cases peaks with
  | mono ps => exact hmono ps ch d nm
  | multi chs =>
    cases chs with
    | nil => exact hmono [] ch d nm
    | cons c0 rest =>
      simp only [MultiCanvas.prepareDraw]
      split
      · intro op hop
        simp only [List.mem_flatten, List.mem_map] at hop
        obtain ⟨l, ⟨ic, _, rfl⟩, hopl⟩ := hop
        exact hmono ic.2 ic.1 _ _ op hopl
      · exact hmono c0 ch d nm

/-- The bars callback tags every rectangle with the channel it renders. -/
lemma barsFn_chOf (s : MCState) (st en : Option ℚ) (args : DrawArgs) :
    ∀ op ∈ MultiCanvas.barsFn s st en args, DrawOp.chOf op = args.channelIndex := by
  unfold MultiCanvas.barsFn
  cases st with
  | none => intro op hop; cases hop
  | some first =>
    cases en with
    | none => intro op hop; cases hop
    | some last =>
      intro op hop
      simp only [List.mem_map] at hop
      obtain ⟨k, _, rfl⟩ := hop
      rfl

/-- The wave callback tags the polyline and the median line with the
channel it renders. -/
lemma waveFn_chOf (s : MCState) (st en : Option ℚ) (args : DrawArgs) :
    ∀ op ∈ MultiCanvas.waveFn s st en args, DrawOp.chOf op = args.channelIndex := by
  unfold MultiCanvas.waveFn
  cases st with
  | none =>
    intro op hop
    simp only [List.nil_append, List.mem_singleton] at hop
    subst hop
    rfl
  | some v =>
    intro op hop
    simp only [List.cons_append, List.nil_append, List.mem_cons, List.not_mem_nil,
      or_false] at hop
    rcases hop with rfl | rfl
    · rfl
    · rfl

/-- C3 counterexample: renderBars with an undefined start draws
nothing at all, not the flat midline the claim promises. -/
theorem drawBars_empty_start_cex :
    MultiCanvas.drawBars sampleState (Peaks.mono [1 / 2, 1]) 0 none none = [] ∧
    MultiCanvas.drawBars sampleState (Peaks.mono [1 / 2, 1]) 0 none none
      ≠ [MultiCanvas.medianLineOp sampleState (5 / 2) 0 0] := by
  have h : MultiCanvas.drawBars sampleState (Peaks.mono [1 / 2, 1]) 0 none none = [] := by
    unfold MultiCanvas.drawBars
    exact prepareDraw_empty _ _ _ _ _ _ (fun _ => rfl)
  refine ⟨h, ?_⟩
  rw [h]
  simp

/-- C3 amended: with an undefined start, renderBars draws nothing at
all, and renderLine draws only median line rectangles (one per visible
channel) and no polyline geometry. -/
theorem empty_start_draws_amended (s : MCState) (peaks : Peaks) (ch : ℕ) (en : Option ℚ) :
    MultiCanvas.drawBars s peaks ch none en = [] ∧
    ∀ op ∈ MultiCanvas.drawWave s peaks ch none en,
      ∃ halfH offsetY c, op = MultiCanvas.medianLineOp s halfH offsetY c := by
  constructor
  · unfold MultiCanvas.drawBars
    exact prepareDraw_empty _ _ _ _ _ _ (fun _ => rfl)
  · unfold MultiCanvas.drawWave
    have hmono : ∀ (ps : List ℚ) (c : ℕ) (d0 : Option ℤ) (nm0 : Option ℚ),
        ∀ op ∈ MultiCanvas.prepareDrawMono s ps c d0 nm0 (MultiCanvas.waveFn s none en),
          ∃ halfH offsetY c0, op = MultiCanvas.medianLineOp s halfH offsetY c0 := by
      intro ps c d0 nm0 op hop
      have h := prepareDrawMono_mem s ps c d0 nm0 (MultiCanvas.waveFn s none en)
        (fun op => ∃ halfH offsetY c0, op = MultiCanvas.medianLineOp s halfH offsetY c0)
        ?_ op hop
      · exact h.2
      · intro args _ op0 hop0
        simp only [MultiCanvas.waveFn, List.nil_append, List.mem_singleton] at hop0
        exact ⟨args.halfH, args.offsetY, args.channelIndex, hop0⟩
    cases peaks with
    | mono ps => exact hmono ps ch none none
    | multi chs =>
      cases chs with
      | nil => exact hmono [] ch none none
      | cons c0 rest =>
        simp only [MultiCanvas.prepareDraw]
        split
        · intro op hop
          simp only [List.mem_flatten, List.mem_map] at hop
          obtain ⟨l, ⟨ic, _, rfl⟩, hopl⟩ := hop
          exact hmono ic.2 ic.1 _ _ op hopl
        · exact hmono c0 ch none none

/-- A split-channel sample configuration that filters out channel 1. -/
def sampleSplitState : MCState :=
  { sampleState with params :=
      { sampleParams with splitChannels := true, filterChannels := [1] } }

/-- C7: in split-channel mode a channel listed in filterChannels is
never rasterized: neither renderBars nor renderLine emits a drawing
operation tagged with a filtered channel, so nothing for it reaches
any surface. -/
theorem filtered_channel_never_rasterized (s : MCState) (peaks : Peaks) (ch : ℕ)
    (st en : Option ℚ) (hsplit : s.params.splitChannels = true) :
    (∀ op ∈ MultiCanvas.drawBars s peaks ch st en,
      DrawOp.chOf op ∉ s.params.filterChannels) ∧
    (∀ op ∈ MultiCanvas.drawWave s peaks ch st en,
      DrawOp.chOf op ∉ s.params.filterChannels) := by
  have hconv : ∀ c : ℕ, MultiCanvas.hideChannel s c = false → c ∉ s.params.filterChannels := by
    intro c hc
    unfold MultiCanvas.hideChannel at hc
    rw [hsplit, Bool.true_and] at hc
    simpa using hc
  constructor
  · intro op hop
    unfold MultiCanvas.drawBars at hop
    exact hconv _ (prepareDraw_channel_visible s peaks ch none none _
      (barsFn_chOf s st en) op hop)
  · intro op hop
    unfold MultiCanvas.drawWave at hop
    exact hconv _ (prepareDraw_channel_visible s peaks ch none none _
      (waveFn_chOf s st en) op hop)

/-- Witness for C7 on the split sample state with channel 1 filtered. -/
theorem filtered_channel_never_rasterized_witness :
    (∀ op ∈ MultiCanvas.drawBars sampleSplitState (Peaks.multi [[1 / 2], [1]]) 0 (some 0) (some 4),
      DrawOp.chOf op ∉ sampleSplitState.params.filterChannels) ∧
    (∀ op ∈ MultiCanvas.drawWave sampleSplitState (Peaks.multi [[1 / 2], [1]]) 0 (some 0) (some 4),
      DrawOp.chOf op ∉ sampleSplitState.params.filterChannels) :=
  filtered_channel_never_rasterized sampleSplitState (Peaks.multi [[1 / 2], [1]]) 0
    (some 0) (some 4) (by decide)

/-- Exactness of the closed-form bar loop count: the loop guard holds
at every iteration below the count and fails at the count. -/
lemma barIterCount_exact (first last step : ℚ) (hstep : 0 < step) (hle : first ≤ last) :
    (¬ (first + (MultiCanvas.barIterCount first last step : ℚ) * step < last)) ∧
    ∀ k : ℕ, k < MultiCanvas.barIterCount first last step → first + (k : ℚ) * step < last := by
  unfold MultiCanvas.barIterCount
  rw [if_neg (not_le.mpr hstep)]
  set q : ℚ := (last - first) / step with hq
  have hq0 : 0 ≤ q := div_nonneg (by linarith) hstep.le
  have hceil0 : (0 : ℤ) ≤ ⌈q⌉ := Int.ceil_nonneg hq0
  constructor
  · rw [not_lt]
    have h1 : q ≤ ((⌈q⌉.toNat : ℕ) : ℚ) := by
      have h2 : ((⌈q⌉.toNat : ℕ) : ℚ) = ((⌈q⌉ : ℤ) : ℚ) := by
        exact_mod_cast congrArg (fun z : ℤ => (z : ℚ)) (Int.toNat_of_nonneg hceil0)
      rw [h2]
      exact Int.le_ceil q
    have h3 : last - first ≤ ((⌈q⌉.toNat : ℕ) : ℚ) * step := (div_le_iff₀ hstep).mp h1
    linarith
  · intro k hk
    have hk2 : (k : ℤ) < ⌈q⌉ := by omega
    have hkq : (k : ℚ) < q := by
      have h3 : ((k : ℤ) : ℚ) + 1 ≤ ((⌈q⌉ : ℤ) : ℚ) := by exact_mod_cast hk2
      have h4 : ((⌈q⌉ : ℤ) : ℚ) < q + 1 := Int.ceil_lt_add_one q
      push_cast at h3 ⊢
      linarith
    have h5 : (k : ℚ) * step < last - first := (lt_div_iff₀ hstep).mp hkq
    linarith

/-- Exactness of the closed-form do-while scan count: the count is at
least one, the guard holds after every body run before the last, and
fails after the last. -/
lemma innerCount_exact (a b : ℤ) (sc : ℕ) (hsc : 0 < sc) :
    1 ≤ MultiCanvas.innerCount a b sc ∧
    (¬ ((a : ℚ) + (MultiCanvas.innerCount a b sc : ℚ) * (sc : ℚ) < (b : ℚ))) ∧
    ∀ t : ℕ, t + 1 < MultiCanvas.innerCount a b sc →
      (a : ℚ) + ((t : ℚ) + 1) * (sc : ℚ) < (b : ℚ) := by
  unfold MultiCanvas.innerCount
  set q : ℚ := ((b - a : ℤ) : ℚ) / ((sc : ℕ) : ℚ) with hq
  have hscq : (0 : ℚ) < ((sc : ℕ) : ℚ) := by exact_mod_cast hsc
  refine ⟨le_max_left _ _, ?_, ?_⟩
  · rw [not_lt]
    have hm : q ≤ ((max 1 ⌈q⌉.toNat : ℕ) : ℚ) := by
      by_cases hc : (0 : ℤ) ≤ ⌈q⌉
      · have h2 : ((⌈q⌉.toNat : ℕ) : ℚ) = ((⌈q⌉ : ℤ) : ℚ) := by
          exact_mod_cast congrArg (fun z : ℤ => (z : ℚ)) (Int.toNat_of_nonneg hc)
        have h3 : q ≤ ((⌈q⌉.toNat : ℕ) : ℚ) := by
          rw [h2]
          exact Int.le_ceil q
        have h4 : ((⌈q⌉.toNat : ℕ) : ℚ) ≤ ((max 1 ⌈q⌉.toNat : ℕ) : ℚ) := by
          exact_mod_cast Nat.le_max_right 1 ⌈q⌉.toNat
        linarith
      · have h2 : q ≤ ((⌈q⌉ : ℤ) : ℚ) := Int.le_ceil q
        have h3 : ((⌈q⌉ : ℤ) : ℚ) ≤ 0 := by exact_mod_cast le_of_lt (not_le.mp hc)
        have h4 : (1 : ℚ) ≤ ((max 1 ⌈q⌉.toNat : ℕ) : ℚ) := by
          exact_mod_cast Nat.le_max_left 1 ⌈q⌉.toNat
        linarith
    have h5 : ((b - a : ℤ) : ℚ) ≤ ((max 1 ⌈q⌉.toNat : ℕ) : ℚ) * ((sc : ℕ) : ℚ) :=
      (div_le_iff₀ hscq).mp hm
    push_cast at h5 ⊢
    linarith
  · intro t ht
    have hc : t + 1 < ⌈q⌉.toNat := by omega
    have h2 : ((t : ℤ) + 1) < ⌈q⌉ := by omega
    have h3 : ((t : ℚ) + 1) < q := by
      have h4 : ((t : ℤ) : ℚ) + 1 + 1 ≤ ((⌈q⌉ : ℤ) : ℚ) := by exact_mod_cast h2
      have h5 : ((⌈q⌉ : ℤ) : ℚ) < q + 1 := Int.ceil_lt_add_one q
      push_cast at h4 ⊢
      linarith
    have h6 : ((t : ℚ) + 1) * ((sc : ℕ) : ℚ) < ((b - a : ℤ) : ℚ) := (lt_div_iff₀ hscq).mp h3
    push_cast at h6 ⊢
    linarith

/-- C10: for pixelRatio at least one and a nonnegative barWidth, the
bar step is the bar width scaled by the pixel ratio plus a gap clamped
below by the pixel ratio in both barGap branches, hence strictly
positive; the bar loop over start to end runs exactly barIterCount
iterations for every start at most end, and the do-while peak scan
always runs at least one iteration and exactly innerCount of them. -/
theorem drawBars_step_terminates (s : MCState) (first last : ℚ)
    (hpr : 1 ≤ s.params.pixelRatio) (hbw : 0 ≤ s.params.barWidth) (hse : first ≤ last) :
    MultiCanvas.stepOf s = s.params.barWidth * s.params.pixelRatio + MultiCanvas.gapOf s ∧
    s.params.pixelRatio ≤ MultiCanvas.gapOf s ∧
    0 < MultiCanvas.stepOf s ∧
    (¬ (first + (MultiCanvas.barIterCount first last (MultiCanvas.stepOf s) : ℚ)
        * MultiCanvas.stepOf s < last)) ∧
    (∀ k : ℕ, k < MultiCanvas.barIterCount first last (MultiCanvas.stepOf s) →
      first + (k : ℚ) * MultiCanvas.stepOf s < last) ∧
    (∀ (a b : ℤ) (sc : ℕ), 0 < sc →
      1 ≤ MultiCanvas.innerCount a b sc ∧
      (¬ ((a : ℚ) + (MultiCanvas.innerCount a b sc : ℚ) * (sc : ℚ) < (b : ℚ))) ∧
      ∀ t : ℕ, t + 1 < MultiCanvas.innerCount a b sc →
        (a : ℚ) + ((t : ℚ) + 1) * (sc : ℚ) < (b : ℚ)) := by
  have hgap : s.params.pixelRatio ≤ MultiCanvas.gapOf s := by
    unfold MultiCanvas.gapOf
    cases s.params.barGap with
    | none => exact le_max_left _ _
    | some g => exact le_max_left _ _
  have hbar : 0 ≤ MultiCanvas.barOf s := mul_nonneg hbw (by linarith)
  have hstep : 0 < MultiCanvas.stepOf s := by
    unfold MultiCanvas.stepOf
    have : (1 : ℚ) ≤ MultiCanvas.gapOf s := le_trans hpr hgap
    linarith
  obtain ⟨hout1, hout2⟩ := barIterCount_exact first last (MultiCanvas.stepOf s) hstep hse
  exact ⟨rfl, hgap, hstep, hout1, hout2, fun a b sc hsc => innerCount_exact a b sc hsc⟩

/-- Witness for C10 on the sample state over the pixel range 0 to 10. -/
theorem drawBars_step_terminates_witness :
    MultiCanvas.stepOf sampleState
      = sampleState.params.barWidth * sampleState.params.pixelRatio
        + MultiCanvas.gapOf sampleState ∧
    sampleState.params.pixelRatio ≤ MultiCanvas.gapOf sampleState ∧
    0 < MultiCanvas.stepOf sampleState ∧
    (¬ ((0 : ℚ) + (MultiCanvas.barIterCount 0 10 (MultiCanvas.stepOf sampleState) : ℚ)
        * MultiCanvas.stepOf sampleState < 10)) ∧
    (∀ k : ℕ, k < MultiCanvas.barIterCount 0 10 (MultiCanvas.stepOf sampleState) →
      (0 : ℚ) + (k : ℚ) * MultiCanvas.stepOf sampleState < 10) ∧
    (∀ (a b : ℤ) (sc : ℕ), 0 < sc →
      1 ≤ MultiCanvas.innerCount a b sc ∧
      (¬ ((a : ℚ) + (MultiCanvas.innerCount a b sc : ℚ) * (sc : ℚ) < (b : ℚ))) ∧
      ∀ t : ℕ, t + 1 < MultiCanvas.innerCount a b sc →
        (a : ℚ) + ((t : ℚ) + 1) * (sc : ℚ) < (b : ℚ)) :=
  drawBars_step_terminates sampleState 0 10
    (by norm_num [sampleState, sampleParams]) (by norm_num [sampleState, sampleParams])
    (by norm_num)

/-- C8 counterexample: with no surfaces (a state as freshly
constructed), getImage with the dataURL type returns no result, not an
ordered list; the claim says every non-single case returns a list. -/
theorem getImage_zero_surfaces_cex :
    MultiCanvas.getImage sampleState ("image/png") (92 / 100) ("dataURL") = MCImage.undef ∧
    MCImage.undef ≠ MCImage.list [] := by
  constructor
  · rfl
  · intro hco
    cases hco

/-- C8 amended: an unknown type returns no result rather than
throwing; the blob type returns one promised blob per surface in list
order; the dataURL type returns no result with no surfaces, a single
encoded image with exactly one, and the ordered per-surface list with
more than one. -/
theorem getImage_modes_amended (s : MCState) (format : String) (q : ℚ) (type : String) :
    (type ≠ "blob" → type ≠ "dataURL" → MultiCanvas.getImage s format q type = MCImage.undef) ∧
    (MultiCanvas.getImage s format q "blob"
      = MCImage.blobs (s.canvases.map (fun e => CanvasEntry.encodeImage format q e.waveData)) ∧
     (s.canvases.map (fun e => CanvasEntry.encodeImage format q e.waveData)).length
      = s.canvases.length) ∧
    (s.canvases.length = 0 → MultiCanvas.getImage s format q "dataURL" = MCImage.undef) ∧
    (s.canvases.length = 1 →
      ∃ u, MultiCanvas.getImage s format q "dataURL" = MCImage.single u) ∧
    (1 < s.canvases.length →
      MultiCanvas.getImage s format q "dataURL"
        = MCImage.list (s.canvases.map (fun e => CanvasEntry.encodeImage format q e.waveData))) := by
  refine ⟨?_, ⟨?_, List.length_map _ _⟩, ?_, ?_, ?_⟩
  · intro h1 h2
    unfold MultiCanvas.getImage
    rw [if_neg h1, if_neg h2]
  · unfold MultiCanvas.getImage
    rw [if_pos rfl]
  · intro hlen
    unfold MultiCanvas.getImage
    rw [if_neg (by decide), if_pos rfl]
    rw [List.length_eq_zero.mp hlen]
    simp
  · intro hlen
    unfold MultiCanvas.getImage
    rw [if_neg (by decide), if_pos rfl]
    obtain ⟨e, he⟩ := List.length_eq_one.mp hlen
    rw [he]
    exact ⟨CanvasEntry.encodeImage format q e.waveData, by simp⟩
  · intro hlen
    unfold MultiCanvas.getImage
    rw [if_neg (by decide), if_pos rfl]
    rw [if_pos (by simpa using hlen)]

/-- A sample state owning exactly one surface. -/
def oneCanvasState : MCState := { sampleState with canvases := [entryNoProgress] }

/-- A sample state owning two surfaces. -/
def twoCanvasState : MCState :=
  { sampleState with canvases := [entryNoProgress, entryNoProgress] }

/-- Witness for C8 at concrete states with zero, one and two surfaces
and an unknown type. -/
theorem getImage_modes_amended_witness :
    (MultiCanvas.getImage sampleState ("image/png") 1 ("bogus") = MCImage.undef) ∧
    (MultiCanvas.getImage sampleState ("image/png") 1 ("dataURL") = MCImage.undef) ∧
    (∃ u, MultiCanvas.getImage oneCanvasState ("image/png") 1 ("dataURL") = MCImage.single u) ∧
    (MultiCanvas.getImage twoCanvasState ("image/png") 1 ("dataURL")
      = MCImage.list (twoCanvasState.canvases.map
          (fun e => CanvasEntry.encodeImage ("image/png") 1 e.waveData))) :=
  ⟨(getImage_modes_amended sampleState "image/png" 1 "bogus").1 (by decide) (by decide),
   (getImage_modes_amended sampleState "image/png" 1 "dataURL").2.2.1 (by decide),
   (getImage_modes_amended oneCanvasState "image/png" 1 "dataURL").2.2.2.1 (by decide),
   (getImage_modes_amended twoCanvasState "image/png" 1 "dataURL").2.2.2.2 (by decide)⟩

/-- The first owned index with start fraction zero is zero. -/
lemma lineFirst_zero (len : ℕ) : CanvasEntry.lineFirst len 0 = 0 := by
  simp [CanvasEntry.lineFirst]

/-- On a terminal surface (end fraction one) over 2n samples the
one-past-the-end loop bound is n plus one, one more than the n sample
pairs. -/
lemma lineLast_one (n : ℕ) : CanvasEntry.lineLast (2 * n) 1 = (n : ℤ) + 1 := by
  unfold CanvasEntry.lineLast
  have h : ((2 * n : ℕ) : ℚ) / 2 * 1 = ((n : ℕ) : ℚ) := by
    push_cast
    ring
  rw [h, round_natCast]

/-- Reading pair index n of a series of n pairs falls past the end and
yields the defaulted sample zero. -/
lemma nthPeak_pastEnd (peaks : List ℚ) (n : ℕ) (hlen : peaks.length = 2 * n) :
    nthPeak peaks (2 * (n : ℤ)) = 0 := by
  unfold nthPeak
  rw [if_pos (by positivity)]
  apply List.getD_eq_default
  omega

/-- On a terminal surface the final top-edge vertex of the polyline is
built from the defaulted out-of-range sample: it sits on the midline
at the right edge of the canvas. -/
lemma drawLinePath_terminal_vertex (peaks : List ℚ) (n : ℕ) (absmax halfH offsetY w hp : ℚ)
    (hlen : peaks.length = 2 * n) (hn : 1 ≤ n) :
    (w + hp, halfH + offsetY) ∈ CanvasEntry.drawLinePath peaks absmax halfH offsetY 0 1 w hp := by
  have hn0 : ((n : ℕ) : ℚ) ≠ 0 := Nat.cast_ne_zero.mpr (by omega)
  have hr2 : round (((2 * n : ℕ) : ℚ) / 2) = (n : ℤ) := by
    have h : ((2 * n : ℕ) : ℚ) / 2 = ((n : ℕ) : ℚ) := by
      push_cast
      ring
    rw [h, round_natCast]
  simp only [CanvasEntry.drawLinePath, hlen, mul_zero, round_zero, mul_one, hr2]
  refine List.mem_append.mpr (Or.inl (List.mem_append.mpr (Or.inl
    (List.mem_append.mpr (Or.inr ?_)))))
  refine List.mem_map.mpr ⟨(n : ℤ), mem_intRange.mpr ⟨by omega, by omega⟩, ?_⟩
  rw [nthPeak_pastEnd peaks n hlen]
  simp only [zero_div, round_zero, Int.cast_zero, sub_zero, Prod.mk.injEq]
  constructor
  · push_cast
    field_simp
  · trivial

/-- C2 counterexample: on a terminal surface (end fraction one) over
the two-sample series with one min-max pair, the loop range includes
pair index one, which is not below the pair count one, so the read is
past the end; the defaulted sample zero puts the extra vertex on the
midline at the right edge (x four, y one). -/
theorem drawLine_terminal_overrun_cex :
    intRange (CanvasEntry.lineFirst ([(1 : ℚ), -1].length) 0)
        (CanvasEntry.lineLast ([(1 : ℚ), -1].length) 1) = [0, 1] ∧
    ¬ ((1 : ℤ) < (([(1 : ℚ), -1].length : ℕ) : ℤ) / 2) ∧
    nthPeak [1, -1] 2 = 0 ∧
    ((4 : ℚ), (1 : ℚ)) ∈ CanvasEntry.drawLinePath [1, -1] 1 1 0 0 1 4 0 := by
  refine ⟨?_, by decide, rfl, ?_⟩
  · have h1 : CanvasEntry.lineFirst ([(1 : ℚ), -1].length) 0 = 0 := lineFirst_zero 2
    have h2 : CanvasEntry.lineLast ([(1 : ℚ), -1].length) 1 = 2 := lineLast_one 1
    rw [h1, h2]
    decide
  · simpa using drawLinePath_terminal_vertex [1, -1] 1 1 1 0 4 0 rfl (by decide)

/-- C2 amended: the plus one on the owned slice bound is applied
unconditionally, on the terminal surface as well: there the bound is
one past the sample pairs, the extra read defaults to zero, and the
path gains a midline vertex at the right canvas edge. -/
theorem drawLine_slice_amended (peaks : List ℚ) (n : ℕ) (absmax halfH offsetY w hp : ℚ)
    (hlen : peaks.length = 2 * n) (hn : 1 ≤ n) :
    CanvasEntry.lineLast peaks.length 1 = (n : ℤ) + 1 ∧
    (∀ endFrac : ℚ, CanvasEntry.lineLast peaks.length endFrac
      = round ((peaks.length : ℚ) / 2 * endFrac) + 1) ∧
    nthPeak peaks (2 * (n : ℤ)) = 0 ∧
    (w + hp, halfH + offsetY) ∈ CanvasEntry.drawLinePath peaks absmax halfH offsetY 0 1 w hp := by
  refine ⟨?_, fun _ => rfl, nthPeak_pastEnd peaks n hlen,
    drawLinePath_terminal_vertex peaks n absmax halfH offsetY w hp hlen hn⟩
  rw [hlen]
  exact lineLast_one n

/-- Witness for the amended C2 on the two-sample series. -/
theorem drawLine_slice_amended_witness :
    CanvasEntry.lineLast ([(1 : ℚ), -1].length) 1 = (1 : ℤ) + 1 ∧
    (∀ endFrac : ℚ, CanvasEntry.lineLast ([(1 : ℚ), -1].length) endFrac
      = round ((([(1 : ℚ), -1].length : ℕ) : ℚ) / 2 * endFrac) + 1) ∧
    nthPeak [1, -1] (2 * ((1 : ℕ) : ℤ)) = 0 ∧
    ((2 : ℚ) + 3, (5 : ℚ) + 7) ∈ CanvasEntry.drawLinePath [1, -1] 1 5 7 0 1 2 3 :=
  drawLine_slice_amended [1, -1] 1 1 5 7 2 3 rfl (by decide)

end WaveSurfer
